import Mathlib

/-!
Shallow embedding of the extraction engine in `app/document_processor.py`
(class `DocumentProcessor`), restricted to the parts the claims concern:

* `_extract_text_from_anchor`  → `extract_text_from_anchor`
* `_extract_field`             → `extract_field` (with its three lookup stages)
* `_infer_table_section`       → `infer_table_section`
* `_extract_transactions`      → `extract_transactions`
* `_parse_transactions_from_text` → `parse_transactions_from_text`
* the transaction selection of `process_bank_statement` → `statement_transactions`
* the `time_in_business_months` computation of `_extract_form_data`
  → `time_in_business_months`

Python strings are modelled as Lean `String`s operated on through explicit
character-list helpers (so that every function reduces in the kernel);
Python `float` values produced by `float(...)` on the numeric strings this
code feeds it are modelled exactly as decimal rationals `PyNum`
(an integer mantissa with a power-of-ten scale).  This idealises binary
floating point: all concrete numbers in this development are small decimals
where the two agree.  `datetime.now()` is modelled as an explicit `Date`
parameter (the current year as a `Nat` parameter in the fallback parser).
-/

/-- Python `str.lower` on a character (ASCII range, which is all this code meets). -/
def lcChar (c : Char) : Char := Char.toLower c

/-- Python `str.lower` on a string. -/
def strLower (s : String) : String := (s.toList.map lcChar).asString

/-- Whitespace as recognised by Python `str.strip()` (ASCII whitespace). -/
def isPyWs (c : Char) : Bool :=
  c = ' ' || c = '\t' || c = '\n' || c = '\r' || c = '\x0b' || c = '\x0c'

/-- Python `str.strip()`. -/
def pyStrip (s : String) : String :=
  (((s.toList.dropWhile isPyWs).reverse.dropWhile isPyWs).reverse).asString

/-- Python `str.replace(ch, "")`: removes every occurrence of one character. -/
def removeCh (ch : Char) (s : String) : String :=
  (s.toList.filter (fun c => c ≠ ch)).asString

/-- Python `needle in hay` substring test. -/
def strContains (hay needle : String) : Bool :=
  decide (needle.toList <:+: hay.toList)

/-- Python `any(w in h for w in ws)`. -/
def anyKw (h : String) (ws : List String) : Bool :=
  ws.any (fun w => strContains h w)

/-- Numeric value of a list of decimal digit characters. -/
def digitsToNat (cs : List Char) : Nat :=
  cs.foldl (fun a c => a * 10 + (c.toNat - '0'.toNat)) 0

/-- Python `text.split(sep)` for a one-character separator, on character lists. -/
def splitOnCh (sep : Char) : List Char → List Char → List (List Char)
  | [], acc => [acc.reverse]
  | c :: r, acc =>
    if c = sep then acc.reverse :: splitOnCh sep r [] else splitOnCh sep r (c :: acc)

/-- Python slice-index normalisation: negative indices count from the end and
everything is clamped into `[0, n]`, exactly as `s[a:b]` does. -/
def pySliceIdx (n : Nat) (i : Int) : Nat :=
  if i < 0 then (max ((n : Int) + i) 0).toNat else min i.toNat n

/-- Python `s[a:b]` (string slicing never raises; it clamps). -/
def pySlice (s : String) (a b : Int) : String :=
  let cs := s.toList
  let n := cs.length
  let a' := pySliceIdx n a
  let b' := pySliceIdx n b
  (((cs.drop a').take (b' - a'))).asString

/-- Python `hay.rfind(sub)`: start index of the last occurrence, `-1` if none. -/
def pyRfind (hay sub : List Char) : Int :=
  let hits := (List.range (hay.length + 1)).filter (fun i => sub.isPrefixOf (hay.drop i))
  match hits.getLast? with
  | some i => (i : Int)
  | none => -1

/-- Exact decimal number: value `num / 10 ^ scale`.  This models the values
Python's `float(...)` takes on the decimal strings this program parses. -/
structure PyNum where
  num : Int
  scale : Nat
deriving DecidableEq, Repr

/-- Rational value of a `PyNum`. -/
def PyNum.toRat (x : PyNum) : ℚ := (x.num : ℚ) / (10 : ℚ) ^ x.scale

/-- Python `abs` on a parsed number. -/
def PyNum.absVal (x : PyNum) : PyNum := ⟨|x.num|, x.scale⟩

/-- Value comparison `x ≤ y` by cross multiplication (denominators are powers of ten). -/
def PyNum.leB (x y : PyNum) : Bool :=
  x.num * (10 : Int) ^ y.scale ≤ y.num * (10 : Int) ^ x.scale

/-- Strict value comparison `x < y`. -/
def PyNum.ltB (x y : PyNum) : Bool :=
  x.num * (10 : Int) ^ y.scale < y.num * (10 : Int) ^ x.scale

/-- Python `x >= 0` on a parsed number. -/
def PyNum.nonnegB (x : PyNum) : Bool := 0 ≤ x.num

/-- Python `int(x)`: truncation toward zero (`Int.tdiv` truncates toward zero). -/
def PyNum.truncToInt (x : PyNum) : Int := Int.tdiv x.num ((10 : Int) ^ x.scale)

/-- Python `x * 12` (used for "years" in time-in-business). -/
def PyNum.mulNat (x : PyNum) (k : Nat) : PyNum := ⟨x.num * k, x.scale⟩

/-- Exponent part of a Python float literal: optional sign then at least one digit,
consuming the whole remainder. -/
def parseExpPart (cs : List Char) : Option Int :=
  let (sgn, cs1) : Int × List Char :=
    match cs with
    | '+' :: r => (1, r)
    | '-' :: r => (-1, r)
    | _ => (1, cs)
  let ds := cs1.takeWhile Char.isDigit
  if ds ≠ [] ∧ cs1.drop ds.length = [] then some (sgn * (digitsToNat ds : Int)) else none

/-- Python `float(s)` on the numeric-literal strings this program produces:
optional surrounding whitespace, optional sign, digits with at most one dot
(at least one digit overall), optional exponent.  Returns `none` where
`float` raises `ValueError` (e.g. `""`, `"."`, `"-"`, `"1.2.3"`). -/
def pyFloat (s : String) : Option PyNum :=
  let cs := (pyStrip s).toList
  let (neg, cs1) : Bool × List Char :=
    match cs with
    | '-' :: r => (true, r)
    | '+' :: r => (false, r)
    | _ => (false, cs)
  let ip := cs1.takeWhile Char.isDigit
  let cs2 := cs1.drop ip.length
  let (fp, cs3) : List Char × List Char :=
    match cs2 with
    | '.' :: r => (r.takeWhile Char.isDigit, r.drop (r.takeWhile Char.isDigit).length)
    | _ => ([], cs2)
  if ip = [] ∧ fp = [] then none
  else
    let m : Int := (digitsToNat (ip ++ fp) : Int)
    let sm : Int := if neg then -m else m
    let base : PyNum := ⟨sm, fp.length⟩
    match cs3 with
    | [] => some base
    | 'e' :: r =>
      (parseExpPart r).map (fun e =>
        if 0 ≤ e then ⟨base.num * (10 : Int) ^ e.toNat, base.scale⟩
        else ⟨base.num, base.scale + (-e).toNat⟩)
    | 'E' :: r =>
      (parseExpPart r).map (fun e =>
        if 0 ≤ e then ⟨base.num * (10 : Int) ^ e.toNat, base.scale⟩
        else ⟨base.num, base.scale + (-e).toNat⟩)
    | _ => none

/-- Offsets of one `TextSegment` of a Document AI text anchor.  `none` models a
start or end index on which Python's `int(...)` conversion raises (the code
catches the error and skips the segment). -/
structure TextSegment where
  startIndex : Option Int
  endIndex : Option Int
deriving DecidableEq, Repr

/-- Document AI `TextAnchor`: inline `content` (empty string models an absent or
falsy content) plus the list of text segments into the document text. -/
structure TextAnchor where
  content : String
  textSegments : List TextSegment
deriving DecidableEq, Repr

/-- Value carried by a form field: either a `value.text_content` payload or a
plain value that the code stringifies with `str(...)`. -/
inductive FVValue where
  | textContent (s : String)
  | plain (s : String)
deriving DecidableEq, Repr

/-- One entry of `document.form_fields`: an optional (truthy) text anchor and an
optional value attribute.  `none` models the attribute being absent or falsy. -/
structure FormFieldVal where
  textAnchor : Option TextAnchor
  value : Option FVValue
deriving DecidableEq, Repr

/-- Document AI entity, restricted to the attributes the claims exercise
(`type_`, `mention_text`, `text_anchor`).  An empty `mentionText` models an
absent or falsy mention text.  Child properties are omitted: no claim concerns
`_extract_daily_balances`, their only consumer. -/
structure Entity where
  type_ : String
  mentionText : String
  textAnchor : Option TextAnchor
deriving DecidableEq, Repr

/-- Table cell: the code reads `cell.layout.text_anchor`; every Document AI cell
carries one, so the anchor is not optional here. -/
structure Cell where
  textAnchor : TextAnchor
deriving DecidableEq, Repr

/-- Table row. -/
structure TableRow where
  cells : List Cell
deriving DecidableEq, Repr

/-- Table with header rows and body rows. -/
structure Table where
  headerRows : List TableRow
  bodyRows : List TableRow
deriving DecidableEq, Repr

/-- Page: ordered tables. -/
structure Page where
  tables : List Table
deriving DecidableEq, Repr

/-- Annotated document.  `text = none` models a document object without a `text`
attribute (the code guards every access with `hasattr`); `some ""` is a present
but empty text.  `formFields` is the insertion-ordered field table. -/
structure Document where
  text : Option String
  formFields : List (String × FormFieldVal)
  entities : List Entity
  pages : List Page
deriving DecidableEq, Repr

/-- Contribution of one text segment: the Python slice `document.text[s:e]`
when both offsets convert to integers, nothing (the segment is skipped) when
the `int(...)` conversion raises. -/
def segSlice (t : String) (seg : TextSegment) : Option String :=
  match seg.startIndex, seg.endIndex with
  | some a, some b => some (pySlice t a b)
  | _, _ => none

/-- Model of `_extract_text_from_anchor` (document_processor.py lines 214-228):
inline content wins when non-empty; otherwise each segment with convertible
offsets contributes the Python slice `document.text[s:e]` and the parts are
joined with a single space; every other case yields the empty string. -/
def extract_text_from_anchor (docText : Option String) (anchor : Option TextAnchor) : String :=
  match anchor with
  | none => ""
  | some ta =>
    if ta.content ≠ "" then ta.content
    else
      match docText with
      | some t =>
        if ta.textSegments ≠ [] then
          String.intercalate " " (ta.textSegments.filterMap (segSlice t))
        else ""
      | none => ""

/-- Resolution of one form-field value, as the three `if`/`return` cases of
`_extract_field` perform it.  `none` means no case fired and control falls
through in the Python code. -/
def resolveFV (docText : Option String) (fv : FormFieldVal) : Option String :=
  match fv.textAnchor with
  | some ta => some (extract_text_from_anchor docText (some ta))
  | none =>
    match fv.value with
    | some (FVValue.textContent s) => some s
    | some (FVValue.plain s) => some s
    | none => none

/-- Stage 1 of `_extract_field`: exact-key lookup in the field table. -/
def stageExact (doc : Document) (fieldName : String) : Option String :=
  match doc.formFields.find? (fun kv => kv.1 = fieldName) with
  | some kv => resolveFV doc.text kv.2
  | none => none

/-- Stage 2 of `_extract_field`: first key whose lowercase form equals the
lowercased field name and whose value resolves; a matching key whose value
does not resolve lets the loop continue, exactly as the Python `for` loop does. -/
def stageCI (docText : Option String) : List (String × FormFieldVal) → String → Option String
  | [], _ => none
  | (k, v) :: rest, fn =>
    if strLower k = fn then
      match resolveFV docText v with
      | some s => some s
      | none => stageCI docText rest fn
    else stageCI docText rest fn

/-- Stage 3 of `_extract_field`: first entity whose type matches (exactly or
case-insensitively) and yields a non-empty mention text or a non-empty anchor
resolution; empty resolutions let the loop continue. -/
def stageEntities (docText : Option String) : List Entity → String → Option String
  | [], _ => none
  | e :: rest, fn =>
    if e.type_ = fn ∨ strLower e.type_ = strLower fn then
      if e.mentionText ≠ "" then some e.mentionText
      else
        match e.textAnchor with
        | some ta =>
          let t := extract_text_from_anchor docText (some ta)
          if t ≠ "" then some t else stageEntities docText rest fn
        | none => stageEntities docText rest fn
    else stageEntities docText rest fn

/-- Model of `_extract_field` (document_processor.py lines 182-212): exact-key
stage, then case-insensitive stage, then entity stage; the first stage that
returns does so even with an empty string; `""` when nothing returns. -/
def extract_field (doc : Document) (fieldName : String) : String :=
  match stageExact doc fieldName with
  | some s => s
  | none =>
    match stageCI doc.text doc.formFields (strLower fieldName) with
    | some s => s
    | none =>
      match stageEntities doc.text doc.entities fieldName with
      | some s => s
      | none => ""

/-- Python `a or b` on strings: `a` when non-empty, else `b`. -/
def pyOr (a b : String) : String := if a ≠ "" then a else b

/-- Calendar date (year ≥ 1 in every date this code constructs). -/
structure Date where
  year : Nat
  month : Nat
  day : Nat
deriving DecidableEq, Repr

/-- Gregorian leap-year rule, as `datetime` applies it. -/
def isLeap (y : Nat) : Bool := y % 4 = 0 && (y % 100 ≠ 0 || y % 400 = 0)

/-- Days in a month, as `datetime` validates day-of-month. -/
def daysInMonth (y m : Nat) : Nat :=
  if m = 2 then (if isLeap y then 29 else 28)
  else if m = 4 ∨ m = 6 ∨ m = 9 ∨ m = 11 then 30
  else 31

/-- Validity check the `datetime(year, month, day)` constructor performs. -/
def validDate (y m d : Nat) : Bool :=
  1 ≤ y && 1 ≤ m && m ≤ 12 && 1 ≤ d && d ≤ daysInMonth y m

/-- Day number of a date (days since the proleptic-Gregorian era origin); two
dates subtract to the same day difference `(a - b).days` that `datetime`
subtraction yields for midnight datetimes. -/
def rataDie (dt : Date) : Nat :=
  let y := if dt.month ≤ 2 then dt.year - 1 else dt.year
  let era := y / 400
  let yoe := y % 400
  let mp := (dt.month + 9) % 12
  let doy := (153 * mp + 2) / 5 + (dt.day - 1)
  let doe := yoe * 365 + yoe / 4 - yoe / 100 + doy
  era * 146097 + doe

/-- Day difference `(a - b).days` for midnight datetimes. -/
def dayDiff (a b : Date) : Int := (rataDie a : Int) - (rataDie b : Int)

/-- A 1-2 digit numeric token with a value bound, as the `strptime` patterns for
`%m` (bounds 1..12) and `%d` (bounds 1..31) admit. -/
def pVal12 (lo hi : Nat) (cs : List Char) : Option (Nat × List Char) :=
  let run := cs.takeWhile Char.isDigit
  if (run.length = 1 ∨ run.length = 2) ∧ lo ≤ digitsToNat run ∧ digitsToNat run ≤ hi then
    some (digitsToNat run, cs.drop run.length)
  else none

/-- The `%Y` pattern: exactly four digits (a fifth digit is left over and makes
the enclosing full-string match fail). -/
def pYear4 (cs : List Char) : Option (Nat × List Char) :=
  let run := cs.take 4
  if run.length = 4 ∧ run.all Char.isDigit then some (digitsToNat run, cs.drop 4) else none

/-- The `%y` pattern: exactly two digits, mapped to 2000-2068 / 1969-1999. -/
def pYear2 (cs : List Char) : Option (Nat × List Char) :=
  let run := cs.take 2
  if run.length = 2 ∧ run.all Char.isDigit then
    let v := digitsToNat run
    some ((if v ≤ 68 then 2000 + v else 1900 + v), cs.drop 2)
  else none

/-- Expect one literal character. -/
def expectCh (c : Char) : List Char → Option (List Char)
  | x :: r => if x = c then some r else none
  | [] => none

/-- The `\s+` a literal space in a `strptime` format compiles to. -/
def pWs1 (cs : List Char) : Option (List Char) :=
  let ws := cs.takeWhile isPyWs
  if ws = [] then none else some (cs.drop ws.length)

/-- Month names in the order `strptime`'s pattern tries them (length-descending,
stable), paired with month numbers; matching is case-insensitive. -/
def monthFullTbl : List (String × Nat) :=
  [("september", 9), ("february", 2), ("november", 11), ("december", 12),
   ("january", 1), ("october", 10), ("august", 8), ("march", 3), ("april", 4),
   ("june", 6), ("july", 7), ("may", 5)]

/-- Month abbreviations for `%b`. -/
def monthAbbrTbl : List (String × Nat) :=
  [("jan", 1), ("feb", 2), ("mar", 3), ("apr", 4), ("may", 5), ("jun", 6),
   ("jul", 7), ("aug", 8), ("sep", 9), ("oct", 10), ("nov", 11), ("dec", 12)]

/-- Case-insensitive month-name token against a name table. -/
def pMonthIn : List (String × Nat) → List Char → Option (Nat × List Char)
  | [], _ => none
  | (nm, v) :: rest, cs =>
    if nm.toList.isPrefixOf (cs.map lcChar) then some (v, cs.drop nm.length)
    else pMonthIn rest cs

/-- Format `%Y<sep>%m<sep>%d`. -/
def fmtYMD (sep : Char) (cs : List Char) : Option Date :=
  (pYear4 cs).bind fun py =>
  (expectCh sep py.2).bind fun r2 =>
  (pVal12 1 12 r2).bind fun pm =>
  (expectCh sep pm.2).bind fun r4 =>
  (pVal12 1 31 r4).bind fun pd =>
  if pd.2 = [] ∧ validDate py.1 pm.1 pd.1 then some ⟨py.1, pm.1, pd.1⟩ else none

/-- Format `%m<sep>%d<sep>%Y`. -/
def fmtMDY (sep : Char) (cs : List Char) : Option Date :=
  (pVal12 1 12 cs).bind fun pm =>
  (expectCh sep pm.2).bind fun r2 =>
  (pVal12 1 31 r2).bind fun pd =>
  (expectCh sep pd.2).bind fun r4 =>
  (pYear4 r4).bind fun py =>
  if py.2 = [] ∧ validDate py.1 pm.1 pd.1 then some ⟨py.1, pm.1, pd.1⟩ else none

/-- Format `%d<sep>%m<sep>%Y`. -/
def fmtDMY (sep : Char) (cs : List Char) : Option Date :=
  (pVal12 1 31 cs).bind fun pd =>
  (expectCh sep pd.2).bind fun r2 =>
  (pVal12 1 12 r2).bind fun pm =>
  (expectCh sep pm.2).bind fun r4 =>
  (pYear4 r4).bind fun py =>
  if py.2 = [] ∧ validDate py.1 pm.1 pd.1 then some ⟨py.1, pm.1, pd.1⟩ else none

/-- Format `%m/%d/%y`. -/
def fmtMDy2 (cs : List Char) : Option Date :=
  (pVal12 1 12 cs).bind fun pm =>
  (expectCh '/' pm.2).bind fun r2 =>
  (pVal12 1 31 r2).bind fun pd =>
  (expectCh '/' pd.2).bind fun r4 =>
  (pYear2 r4).bind fun py =>
  if py.2 = [] ∧ validDate py.1 pm.1 pd.1 then some ⟨py.1, pm.1, pd.1⟩ else none

/-- Format `%m/%d`: `strptime` validates the day against the default year 1900,
then `_parse_transactions_from_text` replaces the year with the current one. -/
def fmtMD (nowYear : Nat) (cs : List Char) : Option Date :=
  (pVal12 1 12 cs).bind fun pm =>
  (expectCh '/' pm.2).bind fun r2 =>
  (pVal12 1 31 r2).bind fun pd =>
  if pd.2 = [] ∧ validDate 1900 pm.1 pd.1 then some ⟨nowYear, pm.1, pd.1⟩ else none

/-- Format `%B %d, %Y` (or `%b %d, %Y` with the abbreviation table). -/
def fmtBdY (tbl : List (String × Nat)) (cs : List Char) : Option Date :=
  (pMonthIn tbl cs).bind fun pm =>
  (pWs1 pm.2).bind fun r2 =>
  (pVal12 1 31 r2).bind fun pd =>
  (expectCh ',' pd.2).bind fun r4 =>
  (pWs1 r4).bind fun r5 =>
  (pYear4 r5).bind fun py =>
  if py.2 = [] ∧ validDate py.1 pm.1 pd.1 then some ⟨py.1, pm.1, pd.1⟩ else none

/-- Format `%d %B %Y`. -/
def fmtdBY (cs : List Char) : Option Date :=
  (pVal12 1 31 cs).bind fun pd =>
  (pWs1 pd.2).bind fun r2 =>
  (pMonthIn monthFullTbl r2).bind fun pm =>
  (pWs1 pm.2).bind fun r4 =>
  (pYear4 r4).bind fun py =>
  if py.2 = [] ∧ validDate py.1 pm.1 pd.1 then some ⟨py.1, pm.1, pd.1⟩ else none

/-- The `_extract_form_data` date-format list, tried in order, first success
wins: `%Y-%m-%d`, `%m/%d/%Y`, `%d/%m/%Y`, `%Y/%m/%d`, `%m-%d-%Y`, `%d-%m-%Y`,
`%B %d, %Y`, `%b %d, %Y`, `%d %B %Y`. -/
def tryDateFormats (s : String) : Option Date :=
  let cs := s.toList
  (fmtYMD '-' cs).orElse fun _ =>
  (fmtMDY '/' cs).orElse fun _ =>
  (fmtDMY '/' cs).orElse fun _ =>
  (fmtYMD '/' cs).orElse fun _ =>
  (fmtMDY '-' cs).orElse fun _ =>
  (fmtDMY '-' cs).orElse fun _ =>
  (fmtBdY monthFullTbl cs).orElse fun _ =>
  (fmtBdY monthAbbrTbl cs).orElse fun _ =>
  fmtdBY cs

/-- Stage (a) month count: `int((now - start_date).days / 30.44)`, with `now`
modelled at midnight; `30.44 = 761/25` exactly, and `int(...)` truncates toward
zero. -/
def tibMonths (now start : Date) : Int := Int.tdiv (dayDiff now start * 25) 761

/-- First match of `\d+\.?\d*` in a string (the token `re.findall` yields first). -/
def firstNumTok : List Char → Option (List Char)
  | [] => none
  | c :: r =>
    if c.isDigit then
      let ds := (c :: r).takeWhile Char.isDigit
      let rest := (c :: r).drop ds.length
      match rest with
      | '.' :: r2 => some (ds ++ '.' :: r2.takeWhile Char.isDigit)
      | _ => some ds
    else firstNumTok r

/-- Stage (b) of the time-in-business computation: runs on the resolved
free-text field; when it extracts no number (or the field is empty) the prior
value survives. -/
def tibStageB (doc : Document) (prior : Option Int) : Option Int :=
  let tib :=
    pyOr (pyOr (extract_field doc "time_in_business")
               (extract_field doc "time_in_business_months"))
         (extract_field doc "tib")
  if tib ≠ "" then
    match firstNumTok tib.toList with
    | some tok =>
      match pyFloat tok.asString with
      | some v =>
        let v2 := if strContains (strLower tib) "year" then v.mulNat 12 else v
        some v2.truncToInt
      | none => prior
    | none => prior
  else prior

/-- Model of the `time_in_business_months` computation of `_extract_form_data`
(document_processor.py lines 153-179).  Stage (a) parses the resolved start
date; the Python guard `if not extracted.get("time_in_business_months")` is
falsy both for `None` and for `0`, so stage (b) runs when stage (a) produced
nothing or produced zero. -/
def time_in_business_months (now : Date) (doc : Document) : Option Int :=
  let startDate := pyOr (extract_field doc "start_date") (extract_field doc "business_start_date")
  let stageA : Option Int :=
    if startDate ≠ "" then
      match tryDateFormats (pyStrip startDate) with
      | some d => some (tibMonths now d)
      | none => none
    else none
  match stageA with
  | some m => if m = 0 then tibStageB doc (some 0) else some m
  | none => tibStageB doc none

/-- Model of `_infer_table_section` (document_processor.py lines 230-244):
keyword rules over the space-joined (already lowercased) header cells, first
match wins. -/
def infer_table_section (headerCells : List String) : Option String :=
  if headerCells = [] then none
  else
    let h := String.intercalate " " headerCells
    if strContains h "deposit" && (strContains h "addition" || strContains h "additions") then
      some "DEPOSITS_AND_ADDITIONS"
    else if strContains h "electronic" && strContains h "withdrawal" then
      some "ELECTRONIC_WITHDRAWALS"
    else if strContains h "checks paid" || strContains h "check paid" then
      some "CHECKS_PAID"
    else if (strContains h "atm" || strContains h "debit card") && strContains h "withdrawal" then
      some "ATM_DEBIT_WITHDRAWALS"
    else if strContains h "fee" then
      some "FEES"
    else none

/-- The four column-role indices of `_extract_transactions`. -/
structure Cols where
  dateCol : Option Nat
  descCol : Option Nat
  amountCol : Option Nat
  typeCol : Option Nat
deriving DecidableEq, Repr

/-- Keywords for the date role. -/
def dateKWs : List String := ["date", "transaction date", "posted date"]

/-- Keywords for the description role. -/
def descKWs : List String := ["description", "memo", "details"]

/-- Keywords for the amount role. -/
def amountKWs : List String := ["amount", "debit", "credit", "withdrawal", "deposit"]

/-- Keywords for the type role. -/
def typeKWs : List String := ["type", "transaction type"]

/-- One step of the column-role loop (the `if`/`elif` chain at lines 262-270):
the first matching category of this cell overwrites that role's index. -/
def applyCell (i : Nat) (h : String) (acc : Cols) : Cols :=
  if anyKw h dateKWs then { acc with dateCol := some i }
  else if anyKw h descKWs then { acc with descCol := some i }
  else if anyKw h amountKWs then { acc with amountCol := some i }
  else if anyKw h typeKWs then { acc with typeCol := some i }
  else acc

/-- The enumerated left-to-right pass of the column-role loop. -/
def inferColsGo : Nat → List String → Cols → Cols
  | _, [], acc => acc
  | i, h :: t, acc => inferColsGo (i + 1) t (applyCell i h acc)

/-- Column-role inference over the (flattened) header-cell texts. -/
def inferCols (hs : List String) : Cols := inferColsGo 0 hs ⟨none, none, none, none⟩

/-- Header-cell text: the code reads `c.layout.text_anchor.content.lower()`
directly (it does not call the anchor resolver). -/
def headerCellText (c : Cell) : String := strLower c.textAnchor.content

/-- Body-cell text: the code reads `c.layout.text_anchor.content.strip()`
directly (it does not call the anchor resolver). -/
def bodyCellText (c : Cell) : String := pyStrip c.textAnchor.content

/-- The flattened header-cell texts of a table: all header rows' cells appended
in order, as the nested loop at lines 255-259 builds `header_cells`. -/
def headerTexts (t : Table) : List String :=
  t.headerRows.flatMap (fun hr => hr.cells.map headerCellText)

/-- The per-row body-cell texts (`cells` at lines 274-276). -/
def bodyTexts (r : TableRow) : List String := r.cells.map bodyCellText

/-- Date of a transaction record: the table path stores the raw cell string,
the text fallback parser stores a parsed `datetime`. -/
inductive TxDate where
  | str (s : String)
  | dt (d : Date)
deriving DecidableEq, Repr

/-- Transaction record; each `Option` field models presence of the Python dict
key of the same name (`sectionLabel` models the `"section"` key). -/
structure Tx where
  date : Option TxDate
  description : Option String
  amount : Option PyNum
  type : Option String
  sectionLabel : Option String
deriving DecidableEq, Repr

/-- Amount-cell cleaning: `replace('$','').replace(',','').strip()`. -/
def moneyStrip (s : String) : String := pyStrip (removeCh ',' (removeCh '$' s))

/-- One body row of `_extract_transactions` (lines 272-294): a transaction is
produced only when an amount column is identified, in range, and parses; the
`type` and `section` values follow the code's sign and type-cell rules. -/
def rowToTx (cols : Cols) (sec : Option String) (cells : List String) : Option Tx :=
  let dateF : Option TxDate :=
    match cols.dateCol with
    | some i => (cells[i]?).map TxDate.str
    | none => none
  let descF : Option String :=
    match cols.descCol with
    | some i => cells[i]?
    | none => none
  match cols.amountCol with
  | none => none
  | some i =>
    match cells[i]? with
    | none => none
    | some amtCell =>
      match pyFloat (moneyStrip amtCell) with
      | none => none
      | some amt =>
        let ty : String :=
          match cols.typeCol with
          | some k =>
            match cells[k]? with
            | some tcell =>
              if strContains (strLower tcell) "credit" || strContains (strLower tcell) "deposit"
              then "CREDIT" else "DEBIT"
            | none => if amt.nonnegB then "CREDIT" else "DEBIT"
          | none => if amt.nonnegB then "CREDIT" else "DEBIT"
        let sct : String :=
          match sec with
          | some s =>
            if s = "" then (if amt.nonnegB then "DEPOSITS_AND_ADDITIONS" else "WITHDRAWALS") else s
          | none => if amt.nonnegB then "DEPOSITS_AND_ADDITIONS" else "WITHDRAWALS"
        some ⟨dateF, descF, some amt.absVal, some ty, some sct⟩

/-- All transactions of one table: section and column roles from the flattened
header texts, then every non-empty body row through `rowToTx`. -/
def tableTxs (t : Table) : List Tx :=
  let hs := headerTexts t
  let sec := infer_table_section hs
  let cols := inferCols hs
  t.bodyRows.filterMap (fun r => if r.cells = [] then none else rowToTx cols sec (bodyTexts r))

/-- Model of `_extract_transactions` (document_processor.py lines 246-296). -/
def extract_transactions (doc : Document) : List Tx :=
  doc.pages.flatMap (fun p => p.tables.flatMap tableTxs)

/-- Separator class (slash or dash) of the fallback date pattern. -/
def isSepCh (c : Char) : Bool := c = '/' || c = '-'

/-- Remainder of a date-pattern match after the first separator: `\d{1,2}`
(greedy) then the optional greedy `the optional separator-plus-2-to-4-digits group`.  Returns the total match
length, `consumed` being the length already matched. -/
def dateAfterSep (consumed : Nat) (cs : List Char) : Option Nat :=
  let dp := (cs.takeWhile Char.isDigit).length
  if dp = 0 then none
  else
    let d2 := min 2 dp
    let rest := cs.drop d2
    let tail : Nat :=
      match rest with
      | c :: r =>
        if isSepCh c then
          let dp3 := (r.takeWhile Char.isDigit).length
          if 2 ≤ dp3 then 1 + min 4 dp3 else 0
        else 0
      | [] => 0
    some (consumed + d2 + tail)

/-- Match of the fallback date pattern (digits, slash-or-dash separators) anchored at the head of `cs`
(greedy with backtracking on the first token, as the `re` engine behaves). -/
def dateMatchAt (cs : List Char) : Option Nat :=
  let dp1 := (cs.takeWhile Char.isDigit).length
  let tryK : Nat → Option Nat := fun k =>
    if 1 ≤ k ∧ k ≤ dp1 then
      match cs.drop k with
      | c :: r => if isSepCh c then dateAfterSep (k + 1) r else none
      | [] => none
    else none
  (tryK 2).orElse fun _ => tryK 1

/-- Leftmost date-pattern match (`re.search`): start position and length. -/
def findDateAux : List Char → Nat → Option (Nat × Nat)
  | [], _ => none
  | c :: r, pos =>
    match dateMatchAt (c :: r) with
    | some len => some (pos, len)
    | none => findDateAux r (pos + 1)

/-- Match of `\$?([-]?[\d,]+\.?\d*)` anchored at the head of `cs`: returns the
captured group (without the `$`) and the total number of characters consumed. -/
def amountMatchAt (cs : List Char) : Option (List Char × Nat) :=
  let (dn, cs1) : Nat × List Char :=
    match cs with
    | '$' :: r => (1, r)
    | _ => (0, cs)
  let (neg, cs2) : Bool × List Char :=
    match cs1 with
    | '-' :: r => (true, r)
    | _ => (false, cs1)
  let body := cs2.takeWhile (fun c => c.isDigit || c = ',')
  if body = [] then none
  else
    let cs3 := cs2.drop body.length
    let (dot, cs4) : List Char × List Char :=
      match cs3 with
      | '.' :: r => (['.'], r)
      | _ => ([], cs3)
    let frac := cs4.takeWhile Char.isDigit
    let cap := (if neg then ['-'] else []) ++ body ++ dot ++ frac
    some (cap, dn + (if neg then 1 else 0) + body.length + dot.length + frac.length)

/-- Non-overlapping left-to-right scan of the amount pattern (`re.findall`);
the fuel argument (initially the list length) only bounds the recursion, every
step consumes at least one character. -/
def findAmountsAux : Nat → List Char → List String
  | 0, _ => []
  | _ + 1, [] => []
  | fuel + 1, c :: r =>
    match amountMatchAt (c :: r) with
    | some (cap, k) => cap.asString :: findAmountsAux fuel (r.drop (k - 1))
    | none => findAmountsAux fuel r

/-- All captures of `\$?([-]?[\d,]+\.?\d*)` in the line. -/
def findAmounts (cs : List Char) : List String := findAmountsAux cs.length cs

/-- The `[10, 10_000_000]` magnitude filter on a parsed candidate. -/
def inRange10M (x : PyNum) : Bool :=
  PyNum.leB ⟨10, 0⟩ x.absVal && PyNum.leB x.absVal ⟨10000000, 0⟩

/-- The guarded list comprehension at lines 359-362: if any candidate fails
`float` conversion the whole comprehension raises and `valid` becomes `[]`;
otherwise the magnitude filter is applied. -/
def validAmounts (ams : List String) : List String :=
  if ams.all (fun a => (pyFloat (removeCh ',' a)).isSome) then
    ams.filter (fun a =>
      match pyFloat (removeCh ',' a) with
      | some q => inRange10M q
      | none => false)
  else []

/-- Key function of the `max(valid, key=...)` call. -/
def absKeyOf (a : String) : PyNum :=
  match pyFloat (removeCh ',' a) with
  | some q => q.absVal
  | none => ⟨0, 0⟩

/-- Python `max` with a key: first element with the maximal key (a later
element replaces the current best only on strictly greater key). -/
def maxByAbs : List String → Option String
  | [] => none
  | x :: xs =>
    some (xs.foldl (fun best a => if PyNum.ltB (absKeyOf best) (absKeyOf a) then a else best) x)

/-- The fallback parser's date-format list, tried in order:
`%m/%d/%Y`, `%m-%d-%Y`, `%m/%d/%y`, `%m/%d`. -/
def parseFallbackDate (ny : Nat) (s : String) : Option Date :=
  let cs := s.toList
  (fmtMDY '/' cs).orElse fun _ =>
  (fmtMDY '-' cs).orElse fun _ =>
  (fmtMDy2 cs).orElse fun _ =>
  fmtMD ny cs

/-- One line of `_parse_transactions_from_text` (lines 352-381): at most one
transaction per line, every failing step drops the line silently. -/
def parseLine (ny : Nat) (rawLine : List Char) : Option Tx :=
  let line := (pyStrip rawLine.asString).toList
  if line.length < 5 then none
  else
    match findDateAux line 0 with
    | none => none
    | some dm =>
      let ams := findAmounts line
      if ams = [] then none
      else
        let valid := validAmounts ams
        if valid = [] then none
        else
          match maxByAbs valid with
          | none => none
          | some amtStr =>
            match pyFloat (removeCh ',' amtStr) with
            | none => none
            | some q =>
              let amt := q.absVal
              let dmEnd := dm.1 + dm.2
              let rf := pyRfind line amtStr.toList
              let desc :=
                if (dmEnd : Int) < rf then
                  pyStrip (((line.drop dmEnd).take (rf.toNat - dmEnd)).asString)
                else ""
              let ty :=
                if strContains (strLower desc) "deposit" || strContains (strLower desc) "credit"
                then "CREDIT" else "DEBIT"
              let dateStr := ((line.drop dm.1).take dm.2).asString
              match parseFallbackDate ny dateStr with
              | none => none
              | some d =>
                some ⟨some (TxDate.dt d), some ((desc.toList.take 200).asString),
                      some amt, some ty, none⟩

/-- Model of `_parse_transactions_from_text` (document_processor.py lines
345-382), with the current year as an explicit parameter. -/
def parse_transactions_from_text (ny : Nat) (text : String) : List Tx :=
  if text = "" then []
  else (splitOnCh '\n' text.toList []).filterMap (fun l => parseLine ny l)

/-- Truthiness of `hasattr(document, 'text') and document.text`. -/
def docTextNonEmpty (doc : Document) : Bool :=
  match doc.text with
  | some t => t ≠ ""
  | none => false

/-- The document text the fallback parser receives. -/
def docTextStr (doc : Document) : String := doc.text.getD ""

/-- Transaction selection of `process_bank_statement` (document_processor.py
lines 78-81): the text fallback parser runs only when structured extraction
yielded nothing and the document text is non-empty. -/
def statement_transactions (ny : Nat) (doc : Document) : List Tx :=
  let transactions := extract_transactions doc
  if transactions.isEmpty && docTextNonEmpty doc then
    parse_transactions_from_text ny (docTextStr doc)
  else transactions

/-- Amounts of a transaction list (projection used by concrete statements). -/
def txAmounts (l : List Tx) : List (Option PyNum) := l.map Tx.amount

/-- Column roles, for specifying the column-role loop. -/
inductive ColRole where
  | date
  | desc
  | amount
  | type
deriving DecidableEq, Repr

/-- The first matching category of one header cell (the `if`/`elif` chain). -/
def cellRole (h : String) : Option ColRole :=
  if anyKw h dateKWs then some ColRole.date
  else if anyKw h descKWs then some ColRole.desc
  else if anyKw h amountKWs then some ColRole.amount
  else if anyKw h typeKWs then some ColRole.type
  else none

/-- Index of the last cell whose first matching category is the given role. -/
def lastRoleIdx (r : ColRole) : List String → Option Nat
  | [] => none
  | h :: t =>
    match lastRoleIdx r t with
    | some j => some (j + 1)
    | none => if cellRole h = some r then some 0 else none

/-- Number of flattened header cells contributed by the header rows before row `r`. -/
def offsetBefore (t : Table) (r : Nat) : Nat :=
  ((t.headerRows.take r).map (fun hr => hr.cells.length)).sum

/-- Erase the text segments of a cell's anchor, keeping its inline content. -/
def eraseCellSegs (c : Cell) : Cell := ⟨⟨c.textAnchor.content, []⟩⟩

/-- Erase all segments in a row. -/
def eraseRowSegs (r : TableRow) : TableRow := ⟨r.cells.map eraseCellSegs⟩

/-- Erase all segments in a table. -/
def eraseTableSegs (t : Table) : Table :=
  ⟨t.headerRows.map eraseRowSegs, t.bodyRows.map eraseRowSegs⟩

/-- Erase all segments in a page. -/
def erasePageSegs (p : Page) : Page := ⟨p.tables.map eraseTableSegs⟩

/-- Erase the document text and every cell's anchor segments, keeping inline
contents: transaction extraction cannot distinguish the result from the
original, because it reads only the `content` attribute. -/
def eraseDocSegs (doc : Document) : Document :=
  ⟨none, doc.formFields, doc.entities, doc.pages.map erasePageSegs⟩

/-- The input line of the fallback-parser scenario. -/
def c1line : String := "03/14/2023 DEPOSIT PAYROLL $1,234.56"

/-- Anchor with no inline content and one zero-width segment: truthy in Python,
resolving to the empty string. -/
def exAnchorC2 : TextAnchor := ⟨"", [⟨(some 0 : Option Int), (some 0 : Option Int)⟩]⟩

/-- Document whose field table resolves `"f"` to the empty string while an
entity of type `"f"` carries the mention text `"X"`. -/
def exDocC2 : Document :=
  ⟨some "ABCDEF", [("f", ⟨some exAnchorC2, none⟩)], [⟨"f", "X", none⟩], []⟩

/-- Cell whose anchor carries only a text segment (no inline content). -/
def exCellC5 : Cell := ⟨⟨"", [⟨(some 0 : Option Int), (some 6 : Option Int)⟩]⟩⟩

/-- Table with a date/description/amount header and one parseable body row. -/
def exTableA : Table :=
  ⟨[⟨[⟨⟨"Date", []⟩⟩, ⟨⟨"Description", []⟩⟩, ⟨⟨"Amount", []⟩⟩]⟩],
   [⟨[⟨⟨"01/05", []⟩⟩, ⟨⟨"coffee", []⟩⟩, ⟨⟨"$4.50", []⟩⟩]⟩]⟩

/-- Document with one working table and raw text the fallback parser could read. -/
def exDocTable : Document := ⟨some "1/2 fee 500.00", [], [], [⟨[exTableA]⟩]⟩

/-- Document with no pages and non-empty raw text. -/
def exDocTextOnly : Document := ⟨some "1/2 fee 500.00", [], [], []⟩

/-- The transaction `exTableA` yields. -/
def coffeeTx : Tx :=
  ⟨some (TxDate.str "01/05"), some "coffee", some ⟨450, 2⟩, some "CREDIT",
   some "DEPOSITS_AND_ADDITIONS"⟩

/-- The transaction the fallback parser yields on `"1/2 fee 500.00"` for 2026. -/
def feeTx : Tx :=
  ⟨some (TxDate.dt ⟨2026, 1, 2⟩), some "fee", some ⟨50000, 2⟩, some "DEBIT", none⟩

/-- Form document whose start date parses to ten days before 2026-10-12 (stage
(a) value 0) and whose free-text field reads `"2 years"`. -/
def exDocTIB : Document :=
  ⟨none,
   [("start_date", ⟨none, some (FVValue.plain "2026-10-02")⟩),
    ("time_in_business", ⟨none, some (FVValue.plain "2 years")⟩)],
   [], []⟩

/-- Form document with only a start date, four years before 2024-01-15. -/
def exDocTIBw : Document :=
  ⟨none, [("start_date", ⟨none, some (FVValue.plain "2020-01-15")⟩)], [], []⟩

/-- Table with an empty first header row; the amount header sits in the second
header row but at flattened index 0. -/
def exT10 : Table :=
  ⟨[⟨[]⟩, ⟨[⟨⟨"Amount", []⟩⟩]⟩], [⟨[⟨⟨"$50.00", []⟩⟩]⟩]⟩

/-- Table with two one-cell header rows (non-empty first row). -/
def exT10b : Table := ⟨[⟨[⟨⟨"Date", []⟩⟩]⟩, ⟨[⟨⟨"Amount", []⟩⟩]⟩], []⟩

lemma absVal_toRat_nonneg (q : PyNum) : 0 ≤ q.absVal.toRat := by
  unfold PyNum.absVal PyNum.toRat
  positivity

lemma rowToTx_shape {cols : Cols} {sec : Option String} {cells : List String} {tx : Tx}
    (h : rowToTx cols sec cells = some tx) :
    ∃ q ty s, tx.amount = some (PyNum.absVal q) ∧ tx.type = some ty ∧ tx.sectionLabel = some s := by
  simp only [rowToTx] at h
  split at h
  · exact absurd h (by simp)
  split at h
  · exact absurd h (by simp)
  split at h
  · exact absurd h (by simp)
  cases h
  exact ⟨_, _, _, rfl, rfl, rfl⟩

lemma parseLine_shape {ny : Nat} {l : List Char} {tx : Tx}
    (h : parseLine ny l = some tx) :
    ∃ d ds q ty, tx = ⟨some (TxDate.dt d), some ds, some (PyNum.absVal q), some ty, none⟩ := by
  simp only [parseLine] at h
  split at h
  · exact absurd h (by simp)
  split at h
  · exact absurd h (by simp)
  split at h
  · exact absurd h (by simp)
  split at h
  · exact absurd h (by simp)
  split at h
  · exact absurd h (by simp)
  split at h
  · exact absurd h (by simp)
  split at h
  · exact absurd h (by simp)
  cases h
  exact ⟨_, _, _, _, rfl⟩

lemma mem_extract_transactions {doc : Document} {tx : Tx}
    (h : tx ∈ extract_transactions doc) :
    ∃ cols sec cells, rowToTx cols sec cells = some tx := by
  simp only [extract_transactions, List.mem_flatMap] at h
  obtain ⟨p, _, t, _, ht⟩ := h
  simp only [tableTxs, List.mem_filterMap] at ht
  obtain ⟨r, _, hr⟩ := ht
  split at hr
  · exact absurd hr (by simp)
  · exact ⟨_, _, _, hr⟩

lemma mem_parse_transactions {ny : Nat} {text : String} {tx : Tx}
    (h : tx ∈ parse_transactions_from_text ny text) :
    ∃ l, parseLine ny l = some tx := by
  simp only [parse_transactions_from_text] at h
  split at h
  · exact absurd h (by simp)
  · simp only [List.mem_filterMap] at h
    obtain ⟨l, _, hl⟩ := h
    exact ⟨l, hl⟩

lemma toList_asString (l : List Char) : l.asString.toList = l := rfl

lemma stageEntities_ne_empty (docText : Option String) (es : List Entity) (fn v : String)
    (h : stageEntities docText es fn = some v) : v ≠ "" := by
  induction es with
  | nil => simp [stageEntities] at h
  | cons e rest ih =>
    simp only [stageEntities] at h
    split at h
    · split at h
      · cases h
        assumption
      · split at h
        · split at h
          · cases h
            assumption
          · exact ih h
        · exact ih h
    · exact ih h

/-- C2 counterexample: the exact-key stage resolves `"f"` to the empty string
and that empty string is returned, although the entity stage would have
produced the non-empty `"X"` — so an earlier empty stage is NOT followed by
trying later stages, and `""` is returned without all stages failing. -/
theorem c2_counterexample :
    extract_field exDocC2 "f" = "" ∧
    stageEntities exDocC2.text exDocC2.entities "f" = some "X" ∧ ("X" : String) ≠ "" := by
  decide

/-- C2 amended: resolution tries exact key, then case-insensitive key, then
entities, and returns the result of the first stage that structurally matches
even when that result is empty (independently of the entities); only the
entity stage skips empty resolutions; the empty string is the total fallback. -/
theorem c2_stage_short_circuit :
    (∀ (docText : Option String) (ffs : List (String × FormFieldVal)) (es : List Entity)
       (pages : List Page) (fn : String) (p : String × FormFieldVal),
       ffs.find? (fun kv => kv.1 = fn) = some p →
       resolveFV docText p.2 = some "" →
       extract_field ⟨docText, ffs, es, pages⟩ fn = "") ∧
    (∀ (docText : Option String) (es : List Entity) (fn v : String),
       stageEntities docText es fn = some v → v ≠ "") ∧
    (∀ (doc : Document) (fn : String),
       stageExact doc fn = none →
       stageCI doc.text doc.formFields (strLower fn) = none →
       extract_field doc fn = (stageEntities doc.text doc.entities fn).getD "") := by
  refine ⟨?_, ?_, ?_⟩
  · intro docText ffs es pages fn p h1 h2
    simp [extract_field, stageExact, h1, h2]
  · exact stageEntities_ne_empty
  · intro doc fn h1 h2
    simp only [extract_field, h1, h2]
    cases he : stageEntities doc.text doc.entities fn <;> simp [he]

/-- Witness for C2: an exact-key match resolving to the empty string is
returned as the final result. -/
theorem c2_witness : extract_field exDocC2 "f" = "" :=
  c2_stage_short_circuit.1 (some "ABCDEF") [("f", ⟨some exAnchorC2, none⟩)]
    [⟨"f", "X", none⟩] [] "f" ("f", ⟨some exAnchorC2, none⟩) (by decide) (by decide)

/-- C5 counterexample: a body cell whose anchor carries only a text segment
resolves to the empty string in transaction extraction (the code reads the
`content` attribute), even though the anchor resolver yields the non-empty
slice of the document text. -/
theorem c5_counterexample :
    bodyCellText exCellC5 = "" ∧
    extract_text_from_anchor (some "123.45") (some exCellC5.textAnchor) = "123.45" ∧
    ("123.45" : String) ≠ "" := by
  decide

lemma flatMap_map_eq {α β : Type} (f : α → α) (g : α → List β)
    (h : ∀ a, g (f a) = g a) (l : List α) : (l.map f).flatMap g = l.flatMap g := by
  induction l with
  | nil => rfl
  | cons a t ih => simp only [List.map_cons, List.flatMap_cons, h, ih]

lemma filterMap_map_eq {α β : Type} (f : α → α) (g : α → Option β)
    (h : ∀ a, g (f a) = g a) (l : List α) : (l.map f).filterMap g = l.filterMap g := by
  induction l with
  | nil => rfl
  | cons a t ih => simp only [List.map_cons, List.filterMap_cons, h, ih]

lemma headerRowTexts_erase (hr : TableRow) :
    (eraseRowSegs hr).cells.map headerCellText = hr.cells.map headerCellText := by
  simp only [eraseRowSegs, List.map_map]
  rfl

lemma bodyTexts_erase (r : TableRow) : bodyTexts (eraseRowSegs r) = bodyTexts r := by
  simp only [bodyTexts, eraseRowSegs, List.map_map]
  rfl

lemma headerTexts_erase (t : Table) : headerTexts (eraseTableSegs t) = headerTexts t := by
  simp only [headerTexts, eraseTableSegs]
  exact flatMap_map_eq _ _ headerRowTexts_erase _

lemma tableTxs_erase (t : Table) : tableTxs (eraseTableSegs t) = tableTxs t := by
  simp only [tableTxs, headerTexts_erase]
  apply filterMap_map_eq
  intro r
  by_cases hc : r.cells = []
  · have hc2 : (eraseRowSegs r).cells = [] := by simp [eraseRowSegs, hc]
    simp [hc, hc2]
  · have hc2 : ¬(eraseRowSegs r).cells = [] := by simp [eraseRowSegs, hc]
    simp [hc, hc2, bodyTexts_erase]

/-- C5 amended: transaction extraction reads only the anchors' inline `content`
fields — erasing every text segment and the whole document text leaves its
output unchanged, so the segment-based resolver plays no part in it. -/
theorem c5_content_only (doc : Document) :
    extract_transactions (eraseDocSegs doc) = extract_transactions doc := by
  simp only [extract_transactions, eraseDocSegs]
  apply flatMap_map_eq
  intro p
  simp only [erasePageSegs]
  exact flatMap_map_eq _ _ tableTxs_erase _

/-- C8 counterexample: an out-of-range segment is not skipped — its clamped
(empty) slice still participates in the single-space join, so the result is
`"ab "` rather than the `"ab"` that skipping would give. -/
theorem c8_counterexample :
    extract_text_from_anchor (some "ab")
      (some ⟨"", [⟨(some 0 : Option Int), (some 2 : Option Int)⟩,
                  ⟨(some 5 : Option Int), (some 9 : Option Int)⟩]⟩) = "ab " ∧
    ("ab " : String) ≠ "ab" := by
  decide

/-- C8 amended: the resolver is total; inline content is returned verbatim;
an absent anchor or absent document text yields `""`; malformed (unconvertible)
offsets are skipped; out-of-range integer offsets are clamped by Python slice
semantics — every resolved part is an infix of the document text — and the
clamped (possibly empty) slices are all included in the single-space join. -/
theorem c8_resolver :
    (∀ (docText : Option String) (ta : TextAnchor), ta.content ≠ "" →
       extract_text_from_anchor docText (some ta) = ta.content) ∧
    (∀ docText : Option String, extract_text_from_anchor docText none = "") ∧
    (∀ ta : TextAnchor, ta.content = "" → extract_text_from_anchor none (some ta) = "") ∧
    (∀ (t : String) (a b : Int), (pySlice t a b).toList <:+: t.toList) ∧
    (∀ (t : String) (pre post : List TextSegment) (sg : TextSegment),
       sg.startIndex = none ∨ sg.endIndex = none →
       extract_text_from_anchor (some t) (some ⟨"", pre ++ sg :: post⟩) =
         extract_text_from_anchor (some t) (some ⟨"", pre ++ post⟩)) := by
  refine ⟨?_, ?_, ?_, ?_, ?_⟩
  · intro docText ta h
    simp [extract_text_from_anchor, h]
  · intro docText
    rfl
  · intro ta h
    simp [extract_text_from_anchor, h]
  · intro t a b
    have h := (List.take_prefix
        (pySliceIdx t.toList.length b - pySliceIdx t.toList.length a)
        (t.toList.drop (pySliceIdx t.toList.length a))).isInfix.trans
      (List.drop_suffix (pySliceIdx t.toList.length a) t.toList).isInfix
    simpa [pySlice, toList_asString] using h
  · intro t pre post sg h
    have hsg : segSlice t sg = none := by
      rcases h with h | h
      · cases he : sg.endIndex <;> simp [segSlice, h]
      · cases hs : sg.startIndex <;> simp [segSlice, h]
    by_cases hpp : pre ++ post = []
    · rw [List.append_eq_nil] at hpp
      obtain ⟨h1, h2⟩ := hpp
      subst h1
      subst h2
      simp [extract_text_from_anchor, hsg, String.intercalate]
    · simp [extract_text_from_anchor, hpp, List.filterMap_append, hsg]

/-- Witness for C8: inline content returned verbatim; a slice is an infix of
the text; a malformed segment is skipped without affecting the result. -/
theorem c8_witness :
    extract_text_from_anchor none (some ⟨"hi", []⟩) = "hi" ∧
    (pySlice "ab" 0 2).toList <:+: "ab".toList ∧
    extract_text_from_anchor (some "ab")
        (some ⟨"", [⟨(none : Option Int), (some 2 : Option Int)⟩,
                    ⟨(some 0 : Option Int), (some 2 : Option Int)⟩]⟩) =
      extract_text_from_anchor (some "ab")
        (some ⟨"", [⟨(some 0 : Option Int), (some 2 : Option Int)⟩]⟩) :=
  ⟨c8_resolver.1 none ⟨"hi", []⟩ (by decide),
   c8_resolver.2.2.2.1 "ab" 0 2,
   c8_resolver.2.2.2.2 "ab" [] [⟨(some 0 : Option Int), (some 2 : Option Int)⟩]
     ⟨(none : Option Int), (some 2 : Option Int)⟩ (Or.inl rfl)⟩

lemma headerTexts_getElem (rows : List TableRow) (r j : Nat)
    (hr : r < rows.length) (hj : j < ((rows.get ⟨r, hr⟩).cells).length) :
    (rows.flatMap (fun hr' => hr'.cells.map headerCellText))[
        (((rows.take r).map (fun x => x.cells.length)).sum + j)]? =
      some (headerCellText ((rows.get ⟨r, hr⟩).cells.get ⟨j, hj⟩)) := by
  induction rows generalizing r with
  | nil => exact absurd hr (by simp)
  | cons hd tl ih =>
    cases r with
    | zero =>
      have hj' : j < hd.cells.length := hj
      simp only [List.take_zero, List.map_nil, List.sum_nil, Nat.zero_add, List.flatMap_cons]
      rw [List.getElem?_append_left (by simpa using hj')]
      rw [List.getElem?_map, List.getElem?_eq_getElem hj']
      rfl
    | succ r' =>
      have hr' : r' < tl.length := by simpa using hr
      have hj' : j < ((tl.get ⟨r', hr'⟩).cells).length := hj
      simp only [List.take_succ_cons, List.map_cons, List.sum_cons, List.flatMap_cons]
      rw [List.getElem?_append_right (by simp; omega)]
      simp only [List.length_map]
      rw [show hd.cells.length + (List.map (fun x => x.cells.length) (List.take r' tl)).sum + j -
            hd.cells.length = (List.map (fun x => x.cells.length) (List.take r' tl)).sum + j
          from by omega]
      exact ih r' hr' hj'

/-- C10 counterexample: in a table whose first header row is empty, the amount
role inferred from the cell in the SECOND header row gets flattened index 0
(the offset contributed by the preceding header row is zero), which selects
exactly the body cell beneath that header — not a different cell and not none:
the row's transaction is built from that very cell. -/
theorem c10_counterexample :
    exT10.headerRows.length = 2 ∧
    (inferCols (headerTexts exT10)).amountCol = some 0 ∧
    offsetBefore exT10 1 = 0 ∧
    tableTxs exT10 = [⟨none, none, some ⟨5000, 2⟩, some "CREDIT",
      some "DEPOSITS_AND_ADDITIONS"⟩] := by
  decide

/-- C10 amended: column-role indices are positions in the flattened
concatenation of all header rows' cells, so a role cell at position `j` of
header row `r` receives index `offsetBefore t r + j`; whenever the preceding
header rows contribute at least one cell, that index differs from `j`, the
position of the body cell beneath the matching header (body rows being indexed
by their own per-row positions). -/
theorem c10_flattened_indexing (t : Table) (r j : Nat)
    (hr : r < t.headerRows.length)
    (hj : j < ((t.headerRows.get ⟨r, hr⟩).cells).length)
    (hoff : 0 < offsetBefore t r) :
    (headerTexts t)[offsetBefore t r + j]? =
      some (headerCellText ((t.headerRows.get ⟨r, hr⟩).cells.get ⟨j, hj⟩)) ∧
    offsetBefore t r + j ≠ j := by
  constructor
  · exact headerTexts_getElem t.headerRows r j hr hj
  · omega

/-- Witness for C10: in a table with two one-cell header rows, the amount
header in the second row sits at flattened index 1, not at its in-row
position 0. -/
theorem c10_witness :
    (headerTexts exT10b)[offsetBefore exT10b 1 + 0]? =
      some (headerCellText ⟨⟨"Amount", []⟩⟩) ∧
    offsetBefore exT10b 1 + 0 ≠ 0 :=
  c10_flattened_indexing exT10b 1 0 (by decide) (by decide) (by decide)

/-- C4: every transaction produced by the table-based extractor or by the text
fallback parser carries an amount, and that amount is nonnegative (both paths
store `abs(...)`); sign lives only in the `type` field. -/
theorem c4_amount_nonneg :
    (∀ (doc : Document) (tx : Tx), tx ∈ extract_transactions doc →
       ∃ q, tx.amount = some q ∧ 0 ≤ q.toRat) ∧
    (∀ (ny : Nat) (text : String) (tx : Tx), tx ∈ parse_transactions_from_text ny text →
       ∃ q, tx.amount = some q ∧ 0 ≤ q.toRat) := by
  constructor
  · intro doc tx h
    obtain ⟨cols, sec, cells, hrow⟩ := mem_extract_transactions h
    obtain ⟨q, ty, s, hq, -, -⟩ := rowToTx_shape hrow
    exact ⟨q.absVal, hq, absVal_toRat_nonneg q⟩
  · intro ny text tx h
    obtain ⟨l, hl⟩ := mem_parse_transactions h
    obtain ⟨d, ds, q, ty, htx⟩ := parseLine_shape hl
    subst htx
    exact ⟨q.absVal, rfl, absVal_toRat_nonneg q⟩

/-- Witness for C4 at the concrete table document `exDocTable`. -/
theorem c4_witness : ∃ q, coffeeTx.amount = some q ∧ 0 ≤ q.toRat :=
  c4_amount_nonneg.1 exDocTable coffeeTx (by decide)

/-- C6 counterexample: on a document with raw text only, the engine's output
comes from the text fallback parser and its transaction carries no section
key at all, refuting the claim that every output transaction carries a
section label. -/
theorem c6_counterexample :
    statement_transactions 2026 exDocTextOnly = [feeTx] ∧ feeTx.sectionLabel = none := by
  constructor
  · decide
  · rfl

/-- C6 amended: table-extracted transactions always carry a section label,
but transactions recovered by the text fallback parser never do. -/
theorem c6_section_labels :
    (∀ (doc : Document) (tx : Tx), tx ∈ extract_transactions doc →
       ∃ s, tx.sectionLabel = some s) ∧
    (∀ (ny : Nat) (text : String) (tx : Tx), tx ∈ parse_transactions_from_text ny text →
       tx.sectionLabel = none) := by
  constructor
  · intro doc tx h
    obtain ⟨cols, sec, cells, hrow⟩ := mem_extract_transactions h
    obtain ⟨q, ty, s, -, -, hs⟩ := rowToTx_shape hrow
    exact ⟨s, hs⟩
  · intro ny text tx h
    obtain ⟨l, hl⟩ := mem_parse_transactions h
    obtain ⟨d, ds, q, ty, htx⟩ := parseLine_shape hl
    subst htx
    rfl

/-- Witness for C6 at the concrete fallback line. -/
theorem c6_witness : feeTx.sectionLabel = none :=
  c6_section_labels.2 2026 "1/2 fee 500.00" feeTx (by decide)

/-- C7: the text fallback parser's output is used exactly when structured table
extraction yielded zero transactions and the document's raw text is non-empty;
otherwise the table transactions (possibly the empty list) are the output. -/
theorem c7_fallback_gating (ny : Nat) (doc : Document) :
    (extract_transactions doc ≠ [] →
       statement_transactions ny doc = extract_transactions doc) ∧
    (extract_transactions doc = [] → docTextNonEmpty doc = true →
       statement_transactions ny doc = parse_transactions_from_text ny (docTextStr doc)) ∧
    (extract_transactions doc = [] → docTextNonEmpty doc = false →
       statement_transactions ny doc = []) := by
  refine ⟨?_, ?_, ?_⟩
  · intro h
    simp [statement_transactions, List.isEmpty_iff, h]
  · intro h ht
    simp [statement_transactions, List.isEmpty_iff, h, ht]
  · intro h ht
    simp [statement_transactions, List.isEmpty_iff, h, ht]

/-- Witness for C7: the table document keeps its table transactions even though
its raw text would feed the fallback parser. -/
theorem c7_witness : statement_transactions 2026 exDocTable = extract_transactions exDocTable :=
  (c7_fallback_gating 2026 exDocTable).1 (by decide)

/-- C1 counterexample: on the scenario line the surviving numeric candidates are
`"14"`, `"2023"` and `"1,234.56"`, and the one with the largest absolute value
is the year fragment `"2023"` — so the parsed amount is 2023, not 1234.56 as
the claim states. -/
theorem c1_counterexample :
    txAmounts (parse_transactions_from_text 2026 c1line) = [some ⟨2023, 0⟩] ∧
    PyNum.toRat ⟨2023, 0⟩ ≠ 1234.56 := by
  constructor
  · decide
  · norm_num [PyNum.toRat]

/-- C1 amended: the line yields exactly one transaction with date 2023-03-14,
empty description (the last occurrence of `"2023"` lies inside the date match),
amount 2023 (the largest surviving candidate is the year fragment) and type
DEBIT (the empty description contains neither "deposit" nor "credit"). -/
theorem c1_fallback_line :
    parse_transactions_from_text 2026 c1line =
      [⟨some (TxDate.dt ⟨2023, 3, 14⟩), some "", some ⟨2023, 0⟩, some "DEBIT", none⟩] := by
  decide

/-- C3 counterexample: with two columns both matching the date keywords, the
assigned index is the later one, not the earliest as the claim states. -/
theorem c3_counterexample :
    (inferCols ["date", "date"]).dateCol = some 1 ∧
    (inferCols ["date", "date"]).dateCol ≠ some 0 := by
  decide

/-- Role-indexed projection out of `Cols`. -/
def colOf (r : ColRole) (c : Cols) : Option Nat :=
  match r with
  | ColRole.date => c.dateCol
  | ColRole.desc => c.descCol
  | ColRole.amount => c.amountCol
  | ColRole.type => c.typeCol

lemma applyCell_colOf (r : ColRole) (i : Nat) (h : String) (acc : Cols) :
    colOf r (applyCell i h acc) = if cellRole h = some r then some i else colOf r acc := by
  cases r <;> simp only [colOf, applyCell, cellRole] <;> split_ifs <;> simp_all

lemma inferColsGo_colOf (r : ColRole) (hs : List String) : ∀ (i : Nat) (acc : Cols),
    colOf r (inferColsGo i hs acc) =
      match lastRoleIdx r hs with
      | some j => some (i + j)
      | none => colOf r acc := by
  induction hs with
  | nil => intro i acc; simp [inferColsGo, lastRoleIdx]
  | cons h t ih =>
    intro i acc
    rw [inferColsGo, ih (i + 1) (applyCell i h acc)]
    simp only [lastRoleIdx]
    cases hl : lastRoleIdx r t with
    | some j =>
      simp only [hl]
      congr 1
      omega
    | none =>
      simp only [hl]
      rw [applyCell_colOf]
      split_ifs with hc
      · simp
      · rfl

/-- C3 amended: in the column-role loop each cell is classified by its first
matching category, and for every role the assigned index is that of the LAST
matching column — a later matching column overwrites an earlier one. -/
theorem c3_last_match (hs : List String) (r : ColRole) :
    colOf r (inferCols hs) = lastRoleIdx r hs := by
  rw [inferCols, inferColsGo_colOf]
  cases hl : lastRoleIdx r hs with
  | none => cases r <;> rfl
  | some j => simp

/-- C9 counterexample: the start date `"2026-10-02"` parses and stage (a)
yields 0 months for now = 2026-10-12, yet the result is 24: the Python guard
`if not extracted.get(...)` treats 0 as falsy, so the free-text field
`"2 years"` is consulted and overwrites the value. -/
theorem c9_counterexample :
    time_in_business_months ⟨2026, 10, 12⟩ exDocTIB = some 24 ∧ (24 : Int) ≠ 0 := by
  constructor
  · decide
  · decide

/-- C9 amended: a parsed start date makes stage (a)'s month count the final
result only when that count is nonzero; the free-text stage is then never
consulted. -/
theorem c9_stage_a_final (now : Date) (doc : Document) (d : Date)
    (h1 : pyOr (extract_field doc "start_date") (extract_field doc "business_start_date") ≠ "")
    (h2 : tryDateFormats (pyStrip (pyOr (extract_field doc "start_date")
            (extract_field doc "business_start_date"))) = some d)
    (h3 : tibMonths now d ≠ 0) :
    time_in_business_months now doc = some (tibMonths now d) := by
  simp [time_in_business_months, h1, h2, h3]

/-- Witness for C9: a start date of 2020-01-15 with now = 2024-01-15 gives 47
months (1461 days / 30.44, truncated), which is final. -/
theorem c9_witness : time_in_business_months ⟨2024, 1, 15⟩ exDocTIBw = some 47 := by
  have h := c9_stage_a_final ⟨2024, 1, 15⟩ exDocTIBw ⟨2020, 1, 15⟩ (by decide) (by decide)
    (by decide)
  have e : tibMonths ⟨2024, 1, 15⟩ ⟨2020, 1, 15⟩ = 47 := by decide
  rw [e] at h
  exact h
